import Mathlib

/-!
Shallow embedding of the HR-AS access-control core: the employees router
(`src/server/api/routers/employees.ts`, full revision) and the departments
router (departments router, full revision).  The Prisma store is modelled as
explicit lists of rows; Prisma `where` objects are modelled as small predicate
ASTs evaluated against a row and the surrounding state; tRPC errors are an
explicit error type.  Each mutation returns the resulting store state together
with an `Except` result; statements outside a `$transaction` block commit to
the state one by one, while a `$transaction` block is a single atomic step.
-/

namespace HRAS

/-- Employee / department status enum (`ACTIVE | INACTIVE` in the Prisma schema). -/
inductive Status
  | ACTIVE
  | INACTIVE
  deriving DecidableEq, Repr

/-- Login account (`User` model): credential holder with a role tag and an
optional back-reference to an employee.  The role is kept as a raw string
because the router casts the session value with `user.role as UserRole`,
so unrecognized strings can reach the RBAC checks. -/
structure User where
  id : String
  email : String
  passwordHash : String
  role : String
  employeeId : Option String := none
  deriving DecidableEq, Repr

/-- Employee row (`Employee` model). `createdAt` is an abstract timestamp. -/
structure Employee where
  id : String
  firstName : String
  lastName : String
  telephone : String
  email : String
  status : Status
  createdAt : Nat := 0
  managerId : Option String := none
  userId : Option String := none
  deriving DecidableEq, Repr

/-- Department row (`Department` model). -/
structure Department where
  id : String
  name : String
  status : Status
  createdAt : Nat := 0
  managerId : Option String := none
  deriving DecidableEq, Repr

/-- Membership row (`EmployeeDepartment` join model). -/
structure EmployeeDepartment where
  employeeId : String
  departmentId : String
  deriving DecidableEq, Repr

/-- The relational store: the four tables the routers touch. -/
structure St where
  users : List User := []
  employees : List Employee := []
  departments : List Department := []
  memberships : List EmployeeDepartment := []
  deriving DecidableEq, Repr

/-- Session context delivered by `getSessionUser`:
`{ id, role, employeeId | null }`.  A `none` employeeId models both `null`
and a non-string value (the router normalizes those to `null`). -/
structure SessionUser where
  id : String
  role : String
  employeeId : Option String := none
  deriving DecidableEq, Repr

/-- `isHRAdmin` role check (string comparison, as in the routers). -/
def isHRAdmin (role : String) : Bool := role == "HRADMIN"

/-- `isManager` role check. -/
def isManager (role : String) : Bool := role == "MANAGER"

/-- `isEmployee` role check. -/
def isEmployee (role : String) : Bool := role == "EMPLOYEE"

/-- tRPC error codes thrown by the two routers. -/
inductive Err
  | UNAUTHORIZED
  | FORBIDDEN
  | NOT_FOUND
  | CONFLICT
  | BAD_REQUEST
  | INTERNAL_SERVER_ERROR
  deriving DecidableEq, Repr

/-- Result of a mutation: the state of the store after the call together with
the call's outcome.  Error outcomes carry whatever state the individually
committed statements produced before the failure. -/
structure MRes (α : Type) where
  state : St
  result : Except Err α

/-- Lowercase a single ASCII letter (models `String.prototype.toLowerCase`
on the ASCII emails this system handles). -/
def lowerChar (c : Char) : Char :=
  if 'A' ≤ c ∧ c ≤ 'Z' then Char.ofNat (c.toNat + 32) else c

/-- Lowercasing of a whole string (`input.email.toLowerCase()`). -/
def strLower (x : String) : String := ⟨x.data.map lowerChar⟩

/-- Whitespace trim (`input.name.trim()`), defined over the character list. -/
def strTrim (x : String) : String :=
  ⟨((x.data.dropWhile Char.isWhitespace).reverse.dropWhile Char.isWhitespace).reverse⟩

/-- Substring test, modelling Prisma `{ contains: v }` (case-sensitive). -/
def containsSub (hay needle : String) : Bool :=
  (List.range (hay.data.length + 1)).any fun i => needle.data.isPrefixOf (hay.data.drop i)

/-- Prisma `EmployeeWhereInput` shapes actually built by the employees router:
leaf comparisons, membership conditions, and binary AND / OR (the router's
n-ary `AND: [...]` / `OR: [...]` arrays are folded with these nodes). -/
inductive EmployeeWhere
  | all
  | idEq (v : String)
  | managerIdEq (v : String)
  | firstNameContains (v : String)
  | lastNameContains (v : String)
  | emailContains (v : String)
  | statusIn (vs : List Status)
  | deptSome (ids : List String)
  | deptManagerEq (v : String)
  | and (l r : EmployeeWhere)
  | or (l r : EmployeeWhere)
  deriving DecidableEq, Repr

/-- Evaluate an employee `where` object against one row.  Relation conditions
(`departments: { some: ... }`) consult the membership and department tables. -/
def evalEmp (s : St) : EmployeeWhere → Employee → Bool
  | .all, _ => true
  | .idEq v, e => e.id == v
  | .managerIdEq v, e => e.managerId == some v
  | .firstNameContains v, e => containsSub e.firstName v
  | .lastNameContains v, e => containsSub e.lastName v
  | .emailContains v, e => containsSub e.email v
  | .statusIn vs, e => vs.contains e.status
  | .deptSome ids, e =>
      s.memberships.any fun m => m.employeeId == e.id && ids.contains m.departmentId
  | .deptManagerEq v, e =>
      s.memberships.any fun m =>
        m.employeeId == e.id &&
          s.departments.any fun d => d.id == m.departmentId && d.managerId == some v
  | .and l r, e => evalEmp s l e && evalEmp s r e
  | .or l r, e => evalEmp s l e || evalEmp s r e

/-- `buildAccessWhere` of the employees router:
employee role sees self only (or nothing when no linked employeeId);
manager role with a linked employeeId sees self, direct reports, and members
of managed departments (the managed-department disjunct is omitted when no
department is managed); every other case falls through to match-all. -/
def buildAccessWhere (s : St) (u : SessionUser) : EmployeeWhere :=
  if isEmployee u.role then
    match u.employeeId with
    | none => .idEq "__none__"
    | some eid => .idEq eid
  else if isManager u.role then
    match u.employeeId with
    | some eid =>
        let deptIds := (s.departments.filter fun d => d.managerId == some eid).map fun d => d.id
        if deptIds.isEmpty then
          .or (.idEq eid) (.managerIdEq eid)
        else
          .or (.idEq eid) (.or (.managerIdEq eid) (.deptSome deptIds))
    | none => .all
  else
    .all

/-- Caller-supplied employee list filters (`listInputSchema.filters`). -/
structure EmpFilters where
  firstName : Option String := none
  lastName : Option String := none
  email : Option String := none
  status : Option (List Status) := none
  departmentIds : Option (List String) := none
  managerId : Option String := none
  deriving DecidableEq, Repr

/-- `applyFilters` of the employees router: each present (truthy) filter value
pushes one clause, and a non-empty clause list yields
`AND [baseWhere, ...clauses]`.  JS truthiness drops empty strings and empty
arrays. -/
def applyFilters (baseWhere : EmployeeWhere) (filters : Option EmpFilters) : EmployeeWhere :=
  match filters with
  | none => baseWhere
  | some f =>
      let cs : List EmployeeWhere :=
        (match f.firstName with
          | some v => if v = "" then [] else [.firstNameContains v]
          | none => []) ++
        (match f.lastName with
          | some v => if v = "" then [] else [.lastNameContains v]
          | none => []) ++
        (match f.email with
          | some v => if v = "" then [] else [.emailContains v]
          | none => []) ++
        (match f.status with
          | some vs => if vs.isEmpty then [] else [.statusIn vs]
          | none => []) ++
        (match f.departmentIds with
          | some ids => if ids.isEmpty then [] else [.deptSome ids]
          | none => []) ++
        (match f.managerId with
          | some v => if v = "" then [] else [.or (.managerIdEq v) (.deptManagerEq v)]
          | none => [])
      if cs.isEmpty then baseWhere else cs.foldl EmployeeWhere.and baseWhere

/-- Sortable employee columns accepted by `listInputSchema.sort.field`. -/
inductive EmpSortField
  | firstName
  | lastName
  | email
  | status
  | createdAt
  deriving DecidableEq, Repr

/-- Sort direction (`asc | desc`). -/
inductive SortDir
  | asc
  | desc
  deriving DecidableEq, Repr

/-- Caller-supplied sort descriptor. -/
structure EmpSort where
  field : EmpSortField
  direction : SortDir
  deriving DecidableEq, Repr

/-- The employees `list` input (`{ filters?, sort? }`, itself optional). -/
structure EmpListInput where
  filters : Option EmpFilters := none
  sort : Option EmpSort := none
  deriving DecidableEq, Repr

/-- Three-way comparison on naturals. -/
def natCmp (m n : Nat) : Ordering :=
  if m < n then .lt else if n < m then .gt else .eq

/-- Lexicographic three-way comparison on character lists (code-point order). -/
def charListCmp : List Char → List Char → Ordering
  | [], [] => .eq
  | [], _ :: _ => .lt
  | _ :: _, [] => .gt
  | a :: as, b :: bs =>
      match natCmp a.toNat b.toNat with
      | .eq => charListCmp as bs
      | o => o

/-- Three-way comparison on strings. -/
def strCmp (x y : String) : Ordering := charListCmp x.data y.data

/-- Sort key for the status column (enum order `ACTIVE < INACTIVE`). -/
def statusKey : Status → Nat
  | .ACTIVE => 0
  | .INACTIVE => 1

/-- Column comparison for one employee sort field. -/
def empFieldCmp (f : EmpSortField) (a b : Employee) : Ordering :=
  match f with
  | .firstName => strCmp a.firstName b.firstName
  | .lastName => strCmp a.lastName b.lastName
  | .email => strCmp a.email b.email
  | .status => natCmp (statusKey a.status) (statusKey b.status)
  | .createdAt => natCmp a.createdAt b.createdAt

/-- Lexicographic comparison along an `orderBy` key list. -/
def empCmp (keys : List (EmpSortField × SortDir)) (a b : Employee) : Ordering :=
  match keys with
  | [] => .eq
  | (f, d) :: rest =>
      let c := empFieldCmp f a b
      let c := match d with | .asc => c | .desc => c.swap
      match c with
      | .eq => empCmp rest a b
      | o => o

/-- Boolean "not greater" order used by the sort routine. -/
def empLe (keys : List (EmpSortField × SortDir)) (a b : Employee) : Bool :=
  match empCmp keys a b with
  | .gt => false
  | _ => true

/-- `buildOrderBy` of the employees router: the caller's single sort key, or
the stable default `lastName asc, firstName asc`. -/
def buildOrderBy (sort : Option EmpSort) : List (EmpSortField × SortDir) :=
  match sort with
  | some x => [(x.field, x.direction)]
  | none => [(.lastName, .asc), (.firstName, .asc)]

/-- Ordered insertion used by the deterministic sort modelling Prisma
`orderBy` row ordering. -/
def insertLe {α : Type} (le : α → α → Bool) (a : α) : List α → List α
  | [] => [a]
  | b :: bs => if le a b then a :: b :: bs else b :: insertLe le a bs

/-- Insertion sort by a boolean order (models the store's `orderBy`). -/
def sortLe {α : Type} (le : α → α → Bool) : List α → List α
  | [] => []
  | a :: as => insertLe le a (sortLe le as)

/-- The employees `list` procedure: RBAC scope first, then filters, then
ordering; returns the rows of `findMany` (no pagination exists in the
router: the input schema has no page fields and the result is a bare array). -/
def employeesList (s : St) (u : SessionUser) (input : Option EmpListInput) : List Employee :=
  let baseWhere := buildAccessWhere s u
  let w := applyFilters baseWhere (input.bind fun i => i.filters)
  sortLe (empLe (buildOrderBy (input.bind fun i => i.sort)))
    (s.employees.filter (evalEmp s w))

/-- Prisma `DepartmentWhereInput` shapes built by the departments router. -/
inductive DeptWhere
  | all
  | idEq (v : String)
  | managerIdEq (v : String)
  | memberSome (eid : String)
  | nameContains (v : String)
  | statusIn (vs : List Status)
  | and (l r : DeptWhere)
  deriving DecidableEq, Repr

/-- Evaluate a department `where` object against one row. -/
def evalDept (s : St) : DeptWhere → Department → Bool
  | .all, _ => true
  | .idEq v, d => d.id == v
  | .managerIdEq v, d => d.managerId == some v
  | .memberSome eid, d =>
      s.memberships.any fun m => m.departmentId == d.id && m.employeeId == eid
  | .nameContains v, d => containsSub d.name v
  | .statusIn vs, d => vs.contains d.status
  | .and l r, d => evalDept s l d && evalDept s r d

/-- `buildAccessWhere` of the departments router: hradmin sees all, a manager
sees the departments they manage, an employee sees the departments they belong
to, sessions without a linked employeeId and unrecognized roles get the
matching-nothing `{ id: "__none__" }` predicate (default deny). -/
def deptBuildAccessWhere (u : SessionUser) : DeptWhere :=
  if isHRAdmin u.role then .all
  else if isManager u.role then
    match u.employeeId with
    | none => .idEq "__none__"
    | some eid => .managerIdEq eid
  else if isEmployee u.role then
    match u.employeeId with
    | none => .idEq "__none__"
    | some eid => .memberSome eid
  else .idEq "__none__"

/-- Caller-supplied department list filters. -/
structure DeptFilters where
  name : Option String := none
  status : Option (List Status) := none
  managerId : Option String := none
  deriving DecidableEq, Repr

/-- `applyFilters` of the departments router. -/
def deptApplyFilters (baseWhere : DeptWhere) (filters : Option DeptFilters) : DeptWhere :=
  match filters with
  | none => baseWhere
  | some f =>
      let cs : List DeptWhere :=
        (match f.name with
          | some v => if v = "" then [] else [.nameContains v]
          | none => []) ++
        (match f.status with
          | some vs => if vs.isEmpty then [] else [.statusIn vs]
          | none => []) ++
        (match f.managerId with
          | some v => if v = "" then [] else [.managerIdEq v]
          | none => [])
      if cs.isEmpty then baseWhere else cs.foldl DeptWhere.and baseWhere

/-- Sortable department columns. -/
inductive DeptSortField
  | name
  | status
  | createdAt
  deriving DecidableEq, Repr

/-- Department sort descriptor. -/
structure DeptSort where
  field : DeptSortField
  direction : SortDir
  deriving DecidableEq, Repr

/-- The departments `list` input. -/
structure DeptListInput where
  filters : Option DeptFilters := none
  sort : Option DeptSort := none
  deriving DecidableEq, Repr

/-- Column comparison for one department sort field. -/
def deptFieldCmp (f : DeptSortField) (a b : Department) : Ordering :=
  match f with
  | .name => strCmp a.name b.name
  | .status => natCmp (statusKey a.status) (statusKey b.status)
  | .createdAt => natCmp a.createdAt b.createdAt

/-- Lexicographic comparison along a department `orderBy` key list. -/
def deptCmp (keys : List (DeptSortField × SortDir)) (a b : Department) : Ordering :=
  match keys with
  | [] => .eq
  | (f, d) :: rest =>
      let c := deptFieldCmp f a b
      let c := match d with | .asc => c | .desc => c.swap
      match c with
      | .eq => deptCmp rest a b
      | o => o

/-- Boolean "not greater" department order. -/
def deptLe (keys : List (DeptSortField × SortDir)) (a b : Department) : Bool :=
  match deptCmp keys a b with
  | .gt => false
  | _ => true

/-- `buildOrderBy` of the departments router (default `name asc`). -/
def deptBuildOrderBy (sort : Option DeptSort) : List (DeptSortField × SortDir) :=
  match sort with
  | some x => [(x.field, x.direction)]
  | none => [(.name, .asc)]

/-- The departments `list` procedure: scope, then filters, then ordering;
again no pagination exists in the router. -/
def departmentsList (s : St) (u : SessionUser) (input : Option DeptListInput) : List Department :=
  let baseWhere := deptBuildAccessWhere u
  let w := deptApplyFilters baseWhere (input.bind fun i => i.filters)
  sortLe (deptLe (deptBuildOrderBy (input.bind fun i => i.sort)))
    (s.departments.filter (evalDept s w))

/-- `assertSelfEmployee`: forbids callers without a linked employeeId and
callers whose employeeId differs from the target. -/
def assertSelfEmployee (u : SessionUser) (employeeId : String) : Except Err Unit :=
  match u.employeeId with
  | none => .error .FORBIDDEN
  | some eid => if eid = employeeId then .ok () else .error .FORBIDDEN

/-- `assertManagerCanAccessEmployee`: the caller needs a linked employeeId,
the target must exist, and some department of the target must be managed by
the caller. -/
def assertManagerCanAccessEmployee (s : St) (u : SessionUser) (targetEmployeeId : String) :
    Except Err Unit :=
  match u.employeeId with
  | none => .error .FORBIDDEN
  | some eid =>
      match s.employees.find? (fun e => e.id == targetEmployeeId) with
      | none => .error .NOT_FOUND
      | some t =>
          let ok := s.memberships.any fun m =>
            m.employeeId == t.id &&
              s.departments.any fun d => d.id == m.departmentId && d.managerId == some eid
          if ok then .ok () else .error .FORBIDDEN

/-- The employees `getById` procedure: employee role must be self; a manager
with a linked employeeId asking about someone else passes the
managed-department check; then the row is fetched (NOT_FOUND when absent). -/
def employeesGetById (s : St) (u : SessionUser) (id : String) : Except Err Employee :=
  match (if isEmployee u.role then assertSelfEmployee u id else .ok () : Except Err Unit) with
  | .error e => .error e
  | .ok _ =>
      match
        (if isManager u.role then
          match u.employeeId with
          | some eid =>
              if id = eid then .ok () else assertManagerCanAccessEmployee s u id
          | none => .ok ()
        else .ok () : Except Err Unit) with
      | .error e => .error e
      | .ok _ =>
          match s.employees.find? (fun e => e.id == id) with
          | none => .error .NOT_FOUND
          | some e => .ok e

/-- The employees `create` input (after zod validation). -/
structure EmpCreateInput where
  firstName : String
  lastName : String
  telephone : String
  email : String
  status : Status := .ACTIVE
  managerId : Option String := none
  departmentIds : Option (List String) := none
  deriving DecidableEq, Repr

/-- The employees `create` procedure (hradmin only): normalize the email,
require it unused across employees and users, validate supplied department
ids, require the configured default password, then — inside one transaction —
create the login user, create the employee, back-link the user, and insert the
memberships.  `newUserId` / `newEmployeeId` stand for the store-generated ids
and `bcryptHash` for the password hash function. -/
def employeesCreate (s : St) (u : SessionUser) (i : EmpCreateInput)
    (defaultPassword : Option String) (bcryptHash : String → String)
    (newUserId newEmployeeId : String) : MRes (User × Employee) :=
  if ¬ isHRAdmin u.role then ⟨s, .error .FORBIDDEN⟩ else
  let email := strLower i.email
  if ((s.employees.find? fun e => e.email == email).isSome ||
      (s.users.find? fun w => w.email == email).isSome) then ⟨s, .error .CONFLICT⟩ else
  let badDeptIds : Bool :=
    match i.departmentIds with
    | some ids =>
        !ids.isEmpty &&
          (s.departments.filter fun d => ids.contains d.id).length != ids.length
    | none => false
  if badDeptIds then ⟨s, .error .BAD_REQUEST⟩ else
  match defaultPassword with
  | none => ⟨s, .error .INTERNAL_SERVER_ERROR⟩
  | some pw =>
      let newUser : User :=
        { id := newUserId, email := email, passwordHash := bcryptHash pw,
          role := "EMPLOYEE", employeeId := none }
      let newEmp : Employee :=
        { id := newEmployeeId, firstName := i.firstName, lastName := i.lastName,
          telephone := i.telephone, email := email, status := i.status,
          managerId := i.managerId, userId := some newUserId }
      let linkedUser : User := { newUser with employeeId := some newEmployeeId }
      let newMs : List EmployeeDepartment :=
        match i.departmentIds with
        | some ids =>
            if ids.isEmpty then [] else
              ids.map fun departmentId => ⟨newEmployeeId, departmentId⟩
        | none => []
      let s' : St :=
        { s with
          users := s.users ++ [linkedUser],
          employees := s.employees ++ [newEmp],
          memberships := s.memberships ++ newMs }
      ⟨s', .ok (newUser, newEmp)⟩

/-- The employees `update` input: each optional field distinguishes absent
from present; `managerId` additionally distinguishes present-null
(`Option (Option String)`). -/
structure EmpUpdateInput where
  id : String
  firstName : Option String := none
  lastName : Option String := none
  telephone : Option String := none
  email : Option String := none
  status : Option Status := none
  managerId : Option (Option String) := none
  departmentIds : Option (List String) := none
  deriving DecidableEq, Repr

/-- The employees `update` procedure: target must exist; a non-admin must be
updating self and must not mention status, departmentIds or managerId at all;
a changed email must be unused; admin-supplied department ids must resolve;
then one transaction updates the employee row, propagates an email change to
the linked user, and (admin only) replaces the membership set. -/
def employeesUpdate (s : St) (u : SessionUser) (i : EmpUpdateInput) : MRes Employee :=
  match s.employees.find? (fun e => e.id == i.id) with
  | none => ⟨s, .error .NOT_FOUND⟩
  | some existing =>
      let isAdmin := isHRAdmin u.role
      if ¬ isAdmin ∧ (assertSelfEmployee u i.id).isOk = false then ⟨s, .error .FORBIDDEN⟩ else
      if ¬ isAdmin ∧ i.status.isSome then ⟨s, .error .FORBIDDEN⟩ else
      if ¬ isAdmin ∧ i.departmentIds.isSome then ⟨s, .error .FORBIDDEN⟩ else
      if ¬ isAdmin ∧ i.managerId.isSome then ⟨s, .error .FORBIDDEN⟩ else
      let nextEmail := i.email.map strLower
      let emailConflict : Bool :=
        match nextEmail with
        | some ne =>
            decide (ne ≠ existing.email) &&
              ((s.employees.find? fun e => e.email == ne).isSome ||
                (s.users.find? fun w => w.email == ne).isSome)
        | none => false
      if emailConflict then ⟨s, .error .CONFLICT⟩ else
      let badDeptIds : Bool :=
        match i.departmentIds with
        | some ids =>
            !ids.isEmpty &&
              (s.departments.filter fun d => ids.contains d.id).length != ids.length
        | none => false
      if isAdmin && badDeptIds then ⟨s, .error .BAD_REQUEST⟩ else
      let updatedEmp : Employee :=
        { existing with
          firstName := i.firstName.getD existing.firstName,
          lastName := i.lastName.getD existing.lastName,
          telephone := i.telephone.getD existing.telephone,
          email := nextEmail.getD existing.email,
          status := if isAdmin then i.status.getD existing.status else existing.status,
          managerId :=
            if isAdmin then
              match i.managerId with
              | some v => v
              | none => existing.managerId
            else existing.managerId }
      let employees' := s.employees.map fun e => if e.id == i.id then updatedEmp else e
      let users' :=
        match nextEmail, existing.userId with
        | some ne, some uid =>
            s.users.map fun w => if w.id == uid then { w with email := ne } else w
        | _, _ => s.users
      let memberships' :=
        if isAdmin then
          match i.departmentIds with
          | some ids =>
              (s.memberships.filter fun m => !(m.employeeId == i.id)) ++
                ids.map fun departmentId => ⟨i.id, departmentId⟩
          | none => s.memberships
        else s.memberships
      let s' : St :=
        { s with users := users', employees := employees', memberships := memberships' }
      ⟨s', .ok updatedEmp⟩

/-- The departments `create` input. -/
structure DeptCreateInput where
  name : String
  status : Status := .ACTIVE
  managerId : Option String := none
  deriving DecidableEq, Repr

/-- Manager-role promotion side effect of the departments `create`/`update`
guards: when the supplied manager employee has a linked user whose role is
not already MANAGER, that user's role is set to MANAGER.  In the router this
is its own `ctx.db.user.update` statement, not wrapped in any transaction. -/
def promoteManagerUser (s : St) (mgr : Employee) : St :=
  match mgr.userId with
  | none => s
  | some uid =>
      match s.users.find? (fun w => w.id == uid) with
      | none => s
      | some w =>
          if w.role == "MANAGER" then s
          else
            { s with users :=
                s.users.map fun x => if x.id == uid then { x with role := "MANAGER" } else x }

/-- The departments `create` procedure (hradmin only): trim the name, require
it unused, validate a supplied managerId and run the role promotion, then
insert the department.  Because the promotion and the insert are separate
store statements with no surrounding transaction, a store failure at the
final insert (`deptWriteFails`) leaves the promotion already committed. -/
def departmentsCreate (s : St) (u : SessionUser) (i : DeptCreateInput)
    (newDeptId : String) (now : Nat) (deptWriteFails : Bool) : MRes Department :=
  if ¬ isHRAdmin u.role then ⟨s, .error .FORBIDDEN⟩ else
  let name := strTrim i.name
  if (s.departments.find? fun d => d.name == name).isSome then ⟨s, .error .CONFLICT⟩ else
  match i.managerId with
  | some mid =>
      (match s.employees.find? (fun e => e.id == mid) with
      | none => ⟨s, .error .BAD_REQUEST⟩
      | some mgr =>
          let s₁ := promoteManagerUser s mgr
          if deptWriteFails then ⟨s₁, .error .INTERNAL_SERVER_ERROR⟩ else
          let newDept : Department :=
            { id := newDeptId, name := name, status := i.status,
              createdAt := now, managerId := some mid }
          ⟨{ s₁ with departments := s₁.departments ++ [newDept] }, .ok newDept⟩)
  | none =>
      if deptWriteFails then ⟨s, .error .INTERNAL_SERVER_ERROR⟩ else
      let newDept : Department :=
        { id := newDeptId, name := name, status := i.status,
          createdAt := now, managerId := none }
      ⟨{ s with departments := s.departments ++ [newDept] }, .ok newDept⟩

/-- Summary returned by the departments `delete` procedure. -/
structure DeletedDepartment where
  id : String
  name : String
  deriving DecidableEq, Repr

/-- The departments `delete` procedure (hradmin only): NOT_FOUND when the id
does not resolve, BAD_REQUEST when the department still has memberships,
otherwise the row is removed. -/
def departmentsDelete (s : St) (u : SessionUser) (id : String) : MRes DeletedDepartment :=
  if ¬ isHRAdmin u.role then ⟨s, .error .FORBIDDEN⟩ else
  match s.departments.find? (fun d => d.id == id) with
  | none => ⟨s, .error .NOT_FOUND⟩
  | some d =>
      if 0 < (s.memberships.filter fun m => m.departmentId == id).length then
        ⟨s, .error .BAD_REQUEST⟩
      else
        ⟨{ s with departments := s.departments.filter fun x => !(x.id == id) },
          .ok ⟨d.id, d.name⟩⟩

/-- Membership of the insertion step of the deterministic sort. -/
theorem mem_insertLe {α : Type} (le : α → α → Bool) (x a : α) :
    ∀ l : List α, a ∈ insertLe le x l ↔ a = x ∨ a ∈ l := by
  intro l
  induction l with
  | nil => simp [insertLe]
  | cons b bs ih =>
      by_cases h : le x b = true
      · simp [insertLe, h, List.mem_cons]
      · simp only [insertLe, h, if_neg, Bool.not_eq_true, List.mem_cons, ih]
        tauto

/-- The deterministic sort does not change the underlying set of rows. -/
theorem mem_sortLe {α : Type} (le : α → α → Bool) (a : α) :
    ∀ l : List α, a ∈ sortLe le l ↔ a ∈ l := by
  intro l
  induction l with
  | nil => simp [sortLe]
  | cons b bs ih => simp [sortLe, mem_insertLe, ih]

/-- The insertion step grows the length by one. -/
theorem length_insertLe {α : Type} (le : α → α → Bool) (x : α) :
    ∀ l : List α, (insertLe le x l).length = l.length + 1 := by
  intro l
  induction l with
  | nil => rfl
  | cons b bs ih =>
      by_cases h : le x b = true
      · simp [insertLe, h]
      · simp [insertLe, h, ih]

/-- The deterministic sort preserves length. -/
theorem length_sortLe {α : Type} (le : α → α → Bool) :
    ∀ l : List α, (sortLe le l).length = l.length := by
  intro l
  induction l with
  | nil => rfl
  | cons b bs ih => simp [sortLe, length_insertLe, ih]

/-- Folding employee filter clauses with AND evaluates to the conjunction. -/
theorem evalEmp_foldl_and (s : St) (e : Employee) :
    ∀ (cs : List EmployeeWhere) (b : EmployeeWhere),
      evalEmp s (cs.foldl EmployeeWhere.and b) e =
        (evalEmp s b e && cs.all fun c => evalEmp s c e) := by
  intro cs
  induction cs with
  | nil => intro b; simp
  | cons c cs ih =>
      intro b
      simp only [List.foldl_cons, ih, List.all_cons, evalEmp, Bool.and_assoc]

/-- Rows matching the composed employee predicate match the base scope. -/
theorem evalEmp_applyFilters (s : St) (b : EmployeeWhere) (f : Option EmpFilters)
    (e : Employee) (h : evalEmp s (applyFilters b f) e = true) :
    evalEmp s b e = true := by
  cases f with
  | none => exact h
  | some f =>
      simp only [applyFilters] at h
      split at h
      · exact h
      · rw [evalEmp_foldl_and] at h
        exact ((Bool.and_eq_true _ _).mp h).1

/-- Folding department filter clauses with AND evaluates to the conjunction. -/
theorem evalDept_foldl_and (s : St) (d : Department) :
    ∀ (cs : List DeptWhere) (b : DeptWhere),
      evalDept s (cs.foldl DeptWhere.and b) d =
        (evalDept s b d && cs.all fun c => evalDept s c d) := by
  intro cs
  induction cs with
  | nil => intro b; simp
  | cons c cs ih =>
      intro b
      simp only [List.foldl_cons, ih, List.all_cons, evalDept, Bool.and_assoc]

/-- Rows matching the composed department predicate match the base scope. -/
theorem evalDept_applyFilters (s : St) (b : DeptWhere) (f : Option DeptFilters)
    (d : Department) (h : evalDept s (deptApplyFilters b f) d = true) :
    evalDept s b d = true := by
  cases f with
  | none => exact h
  | some f =>
      simp only [deptApplyFilters] at h
      split at h
      · exact h
      · rw [evalDept_foldl_and] at h
        exact ((Bool.and_eq_true _ _).mp h).1

/-- `find?` on a key-distinct table returns exactly the row with the key. -/
theorem find?_key_eq {α : Type} (key : α → String) (t : α) :
    ∀ l : List α, (l.map key).Nodup → t ∈ l →
      l.find? (fun x => key x == key t) = some t := by
  intro l
  induction l with
  | nil => intro _ h; cases h
  | cons a l ih =>
      intro hnd ht
      simp only [List.map_cons, List.nodup_cons] at hnd
      rcases List.mem_cons.mp ht with h | h
      · subst h; simp [List.find?]
      · have hne : (key a == key t) = false := by
          refine beq_eq_false_iff_ne.mpr fun hk => hnd.1 ?_
          exact hk ▸ List.mem_map_of_mem key h
        rw [List.find?_cons, hne]
        exact ih hnd.2 h

/-- C1: for every session context and caller-supplied filter object, the
predicate used by the employee and the department list operation is the AND of
the role-derived scope predicate with the filter clauses, so every record
returned by `list` satisfies the scope predicate: filters can only narrow,
never widen, the RBAC scope. -/
theorem list_results_satisfy_scope :
    (∀ (s : St) (u : SessionUser) (input : Option EmpListInput),
      (employeesList s u input).all (evalEmp s (buildAccessWhere s u)) = true) ∧
    (∀ (s : St) (u : SessionUser) (input : Option DeptListInput),
      (departmentsList s u input).all (evalDept s (deptBuildAccessWhere u)) = true) := by
  constructor
  · intro s u input
    rw [List.all_eq_true]
    intro e he
    simp only [employeesList] at he
    rw [mem_sortLe] at he
    exact evalEmp_applyFilters _ _ _ _ (List.mem_filter.mp he).2
  · intro s u input
    rw [List.all_eq_true]
    intro d hd
    simp only [departmentsList] at hd
    rw [mem_sortLe] at hd
    exact evalDept_applyFilters _ _ _ _ (List.mem_filter.mp hd).2

/-- Employee row used by the unrecognized-role counterexample. -/
def exEmployee : Employee :=
  { id := "e1", firstName := "A", lastName := "B", telephone := "t",
    email := "a@x", status := .ACTIVE }

/-- Store used by the unrecognized-role counterexample. -/
def exSt : St := { employees := [exEmployee], departments := [⟨"d1", "Sales", .ACTIVE, 0, none⟩] }

/-- Session with a role outside HRADMIN / MANAGER / EMPLOYEE. -/
def auditorSession : SessionUser := { id := "u9", role := "AUDITOR" }

/-- C2 counterexample: for a session with unrecognized role AUDITOR, the
employee Access Scope Builder returns the match-all predicate (not a
matching-nothing one), and the employee list returns the full employee table
(not the empty set). -/
theorem unknown_role_employee_scope_not_deny_all :
    buildAccessWhere exSt auditorSession = EmployeeWhere.all ∧
    employeesList exSt auditorSession none = [exEmployee] := by
  constructor
  · rfl
  · rfl

/-- C2 (amended): for a session whose role is none of HRADMIN, MANAGER,
EMPLOYEE, the department Access Scope Builder returns the matching-nothing
`id == "__none__"` predicate and department list returns the empty set
(provided no department uses the sentinel id); the employee Access Scope
Builder, however, falls through to the match-all predicate. -/
theorem unknown_role_scopes (s : St) (u : SessionUser)
    (h1 : u.role ≠ "HRADMIN") (h2 : u.role ≠ "MANAGER") (h3 : u.role ≠ "EMPLOYEE")
    (hsent : ∀ d ∈ s.departments, d.id ≠ "__none__") :
    deptBuildAccessWhere u = DeptWhere.idEq "__none__" ∧
    departmentsList s u none = [] ∧
    buildAccessWhere s u = EmployeeWhere.all := by
  have e1 : isHRAdmin u.role = false := by simp [isHRAdmin, h1]
  have e2 : isManager u.role = false := by simp [isManager, h2]
  have e3 : isEmployee u.role = false := by simp [isEmployee, h3]
  have hscope : deptBuildAccessWhere u = DeptWhere.idEq "__none__" := by
    simp [deptBuildAccessWhere, e1, e2, e3]
  refine ⟨hscope, ?_, ?_⟩
  · simp only [departmentsList, Option.bind]
    have hfil : s.departments.filter (evalDept s (deptApplyFilters (deptBuildAccessWhere u) none)) = [] := by
      rw [List.filter_eq_nil_iff]
      intro d hd
      simp only [deptApplyFilters, hscope, evalDept]
      exact fun hc => hsent d hd (by simpa using hc)
    rw [hfil]
    rfl
  · simp [buildAccessWhere, e2, e3]

/-- Store used by the C2 amended-claim witness. -/
def exSt2 : St := { departments := [⟨"d1", "Sales", .ACTIVE, 0, none⟩] }

/-- Witness for the amended C2 theorem at the concrete role ROOT. -/
theorem unknown_role_scopes_witness :
    deptBuildAccessWhere ⟨"u7", "ROOT", none⟩ = DeptWhere.idEq "__none__" ∧
    departmentsList exSt2 ⟨"u7", "ROOT", none⟩ none = [] ∧
    buildAccessWhere exSt2 ⟨"u7", "ROOT", none⟩ = EmployeeWhere.all :=
  unknown_role_scopes exSt2 ⟨"u7", "ROOT", none⟩ (by decide) (by decide) (by decide) (by decide)

/-- C10: a session whose role is MANAGER with no linked employeeId — and
likewise any role other than EMPLOYEE and MANAGER — gets the match-all
employee scope predicate, so the employee list returns the full table. -/
theorem fallthrough_scope_match_all (s : St) (u : SessionUser)
    (hne : u.role ≠ "EMPLOYEE") (hm : u.role ≠ "MANAGER" ∨ u.employeeId = none) :
    buildAccessWhere s u = EmployeeWhere.all ∧
    ∀ e : Employee, e ∈ employeesList s u none ↔ e ∈ s.employees := by
  have e3 : isEmployee u.role = false := by simp [isEmployee, hne]
  have hscope : buildAccessWhere s u = EmployeeWhere.all := by
    rcases hm with hm | hm
    · have e2 : isManager u.role = false := by simp [isManager, hm]
      simp [buildAccessWhere, e2, e3]
    · simp [buildAccessWhere, e3, hm]
  refine ⟨hscope, fun e => ?_⟩
  simp only [employeesList, Option.bind]
  rw [mem_sortLe]
  have : s.employees.filter (evalEmp s (applyFilters (buildAccessWhere s u) none)) = s.employees := by
    rw [List.filter_eq_self]
    intro a _
    simp [applyFilters, hscope, evalEmp]
  rw [this]

/-- Store used by the C10 witness. -/
def wSt : St := { employees := [exEmployee] }

/-- Witness for C10 at the concrete session: role MANAGER, employeeId null. -/
theorem fallthrough_scope_match_all_witness :
    buildAccessWhere wSt ⟨"u5", "MANAGER", none⟩ = EmployeeWhere.all :=
  (fallthrough_scope_match_all wSt ⟨"u5", "MANAGER", none⟩ (by decide) (Or.inr rfl)).1

/-- Employee-row builder for the pagination counterexample state. -/
def c9Emp (n : Nat) : Employee :=
  { id := toString n, firstName := "F", lastName := "L", telephone := "t",
    email := toString n, status := .ACTIVE }

/-- Store with 201 employee rows. -/
def c9St : St := { employees := (List.range 201).map c9Emp }

/-- HR administrator session. -/
def c9Admin : SessionUser := { id := "a2", role := "HRADMIN" }

/-- C9 (code bug): the list operation has no pagination: the router's input
schema has no page or pageSize field and the resolver returns the whole
filtered table as a bare array with no total count, so an admin list call
over 201 rows returns all 201 items at once — there is no clamping to a
200-item ceiling and no requested-page slice. -/
theorem list_unpaginated_returns_all :
    (employeesList c9St c9Admin none).length = 201 := by
  unfold employeesList
  rw [length_sortLe]
  show (List.filter (evalEmp c9St EmployeeWhere.all) c9St.employees).length = 201
  have hfe : List.filter (evalEmp c9St EmployeeWhere.all) c9St.employees = c9St.employees :=
    List.filter_eq_self.mpr fun a _ => rfl
  rw [hfe]
  simp [c9St]

/-- C4: under a session with role EMPLOYEE and linked employeeId E, every
record returned by the employee list operation — with any filters and sort —
has id E, and `getById` on any id other than E fails with FORBIDDEN. -/
theorem employee_role_self_only (s : St) (u : SessionUser) (E : String)
    (input : Option EmpListInput) (tid : String)
    (hrole : u.role = "EMPLOYEE") (heid : u.employeeId = some E) :
    (∀ e ∈ employeesList s u input, e.id = E) ∧
    (tid ≠ E → employeesGetById s u tid = .error .FORBIDDEN) := by
  have e3 : isEmployee u.role = true := by simp [isEmployee, hrole]
  have hscope : buildAccessWhere s u = .idEq E := by simp [buildAccessWhere, e3, heid]
  constructor
  · intro e he
    simp only [employeesList] at he
    rw [mem_sortLe] at he
    have h2 := evalEmp_applyFilters _ _ _ _ (List.mem_filter.mp he).2
    rw [hscope] at h2
    simpa [evalEmp] using h2
  · intro hne
    have hne' : ¬ (E = tid) := fun h => hne h.symm
    simp [employeesGetById, e3, assertSelfEmployee, heid, hne']

/-- Employee row for the C4 witness. -/
def c4Emp : Employee :=
  { id := "e1", firstName := "A", lastName := "B", telephone := "t",
    email := "a@x", status := .ACTIVE }

/-- Witness for C4: a concrete EMPLOYEE session asking for another id. -/
theorem employee_role_self_only_witness :
    employeesGetById { employees := [c4Emp] } ⟨"u1", "EMPLOYEE", some "e1"⟩ "e2" =
      .error .FORBIDDEN :=
  (employee_role_self_only { employees := [c4Emp] } ⟨"u1", "EMPLOYEE", some "e1"⟩ "e1"
    none "e2" rfl rfl).2 (by decide)

/-- C8: for administrator department delete calls: a department with at least
one membership yields BAD_REQUEST and nothing is deleted; an existing
department with zero memberships is removed; an id that resolves to no
department yields NOT_FOUND. -/
theorem dept_delete_semantics (s : St) (u : SessionUser) (id : String)
    (hadmin : u.role = "HRADMIN")
    (hWF : (s.departments.map fun d => d.id).Nodup) :
    ((∃ d ∈ s.departments, d.id = id) → (∃ m ∈ s.memberships, m.departmentId = id) →
      departmentsDelete s u id = ⟨s, .error .BAD_REQUEST⟩) ∧
    (∀ d ∈ s.departments, d.id = id → (∀ m ∈ s.memberships, m.departmentId ≠ id) →
      departmentsDelete s u id =
        ⟨{ s with departments := s.departments.filter fun x => !(x.id == id) },
          .ok ⟨d.id, d.name⟩⟩) ∧
    ((∀ d ∈ s.departments, d.id ≠ id) → departmentsDelete s u id = ⟨s, .error .NOT_FOUND⟩) := by
  have ha : isHRAdmin u.role = true := by simp [isHRAdmin, hadmin]
  refine ⟨?_, ?_, ?_⟩
  · rintro ⟨d, hd, hdid⟩ ⟨m, hm, hmid⟩
    have hfind : s.departments.find? (fun x => x.id == id) = some d := by
      have h : s.departments.find? (fun x => x.id == d.id) = some d := by
        simpa using find?_key_eq (fun x => x.id) d s.departments hWF hd
      rw [hdid] at h
      exact h
    have hmem : m ∈ s.memberships.filter fun m' => m'.departmentId == id :=
      List.mem_filter.mpr ⟨hm, by simp [hmid]⟩
    have hlen : 0 < (s.memberships.filter fun m' => m'.departmentId == id).length :=
      List.length_pos.mpr (List.ne_nil_of_mem hmem)
    simp [departmentsDelete, ha, hfind, hlen]
  · intro d hd hdid hnone
    have hfind : s.departments.find? (fun x => x.id == id) = some d := by
      have h : s.departments.find? (fun x => x.id == d.id) = some d := by
        simpa using find?_key_eq (fun x => x.id) d s.departments hWF hd
      rw [hdid] at h
      exact h
    have hnil : (s.memberships.filter fun m' => m'.departmentId == id) = [] := by
      rw [List.filter_eq_nil_iff]
      intro m hm
      simpa using hnone m hm
    simp [departmentsDelete, ha, hfind, hnil]
  · intro hnone
    have hfind : s.departments.find? (fun x => x.id == id) = none := by
      rw [List.find?_eq_none]
      intro d hd
      simpa using hnone d hd
    simp [departmentsDelete, ha, hfind]

/-- Store for the C8 witness: one department with one membership. -/
def c8St : St :=
  { departments := [⟨"d1", "Sales", .ACTIVE, 0, none⟩], memberships := [⟨"e1", "d1"⟩] }

/-- Witness for C8: deleting the non-empty department d1 is refused. -/
theorem dept_delete_semantics_witness :
    departmentsDelete c8St ⟨"a3", "HRADMIN", none⟩ "d1" = ⟨c8St, .error .BAD_REQUEST⟩ :=
  (dept_delete_semantics c8St ⟨"a3", "HRADMIN", none⟩ "d1" rfl (by decide)).1
    (by decide) (by decide)

/-- C5: an employee update call by a non-administrator session whose payload
mentions status, managerId or departmentIds — regardless of the value — fails
with FORBIDDEN and leaves the stored state unchanged (so an allowed field such
as telephone in the same payload is not applied either). -/
theorem nonadmin_update_priv_fields_forbidden (s : St) (u : SessionUser) (i : EmpUpdateInput)
    (hnonadmin : u.role ≠ "HRADMIN")
    (hexists : ∃ e ∈ s.employees, e.id = i.id)
    (hpriv : i.status.isSome ∨ i.managerId.isSome ∨ i.departmentIds.isSome) :
    employeesUpdate s u i = ⟨s, .error .FORBIDDEN⟩ := by
  have ha : isHRAdmin u.role = false := by simp [isHRAdmin, hnonadmin]
  obtain ⟨e0, he0, hid0⟩ := hexists
  have hfind : (s.employees.find? fun e => e.id == i.id).isSome := by
    rw [List.find?_isSome]
    exact ⟨e0, he0, by simp [hid0]⟩
  obtain ⟨ex, hex⟩ := Option.isSome_iff_exists.mp hfind
  by_cases hself : (assertSelfEmployee u i.id).isOk = false
  · simp [employeesUpdate, hex, ha, hself]
  · by_cases h1 : i.status.isSome
    · simp [employeesUpdate, hex, ha, hself, h1]
    · by_cases h2 : i.departmentIds.isSome
      · simp [employeesUpdate, hex, ha, hself, h1, h2]
      · have h3 : i.managerId.isSome := by
          rcases hpriv with h | h | h
          · exact absurd h h1
          · exact h
          · exact absurd h h2
        simp [employeesUpdate, hex, ha, hself, h1, h2, h3]

/-- Employee row for the C5 witness. -/
def c5Emp : Employee :=
  { id := "e1", firstName := "A", lastName := "B", telephone := "t",
    email := "a@x", status := .ACTIVE, userId := some "u1" }

/-- Witness for C5: a self-update of telephone that also sets status INACTIVE
(the status field's would-be-same value case is covered by the theorem as
well) fails entirely with FORBIDDEN and changes nothing. -/
theorem nonadmin_update_priv_fields_forbidden_witness :
    employeesUpdate { employees := [c5Emp] } ⟨"u1", "EMPLOYEE", some "e1"⟩
      { id := "e1", telephone := some "z", status := some .INACTIVE } =
      ⟨{ employees := [c5Emp] }, .error .FORBIDDEN⟩ :=
  nonadmin_update_priv_fields_forbidden { employees := [c5Emp] }
    ⟨"u1", "EMPLOYEE", some "e1"⟩
    { id := "e1", telephone := some "z", status := some .INACTIVE }
    (by decide) (by decide) (Or.inl rfl)

/-- Every failing employee create leaves the store exactly as it was: all
guard failures throw before the transaction, and the transaction itself is a
single atomic step, so no orphan login account or orphan employee can be
observed after a failure. -/
theorem employeesCreate_error_state_unchanged (s : St) (u : SessionUser) (i : EmpCreateInput)
    (pw : Option String) (bh : String → String) (a b : String) (err : Err)
    (h : (employeesCreate s u i pw bh a b).result = .error err) :
    (employeesCreate s u i pw bh a b).state = s := by
  revert h
  simp only [employeesCreate]
  split
  · intro _; rfl
  · split
    · intro _; rfl
    · split
      · intro _; rfl
      · split
        · intro _; rfl
        · intro h; simp at h

/-- C6: in every store where some employee or login account already holds the
(case-normalized) email being created — stored emails are lowercase by the
system's own normalization invariant, so this is the case-insensitive
collision — an administrator employee create fails with CONFLICT and the
store is unchanged; moreover any failing create leaves no partial state. -/
theorem admin_create_email_conflict_atomic (s : St) (u : SessionUser) (i : EmpCreateInput)
    (pw : Option String) (bh : String → String) (nuid neid : String)
    (hadmin : u.role = "HRADMIN")
    (htaken : (∃ e ∈ s.employees, e.email = strLower i.email) ∨
      (∃ w ∈ s.users, w.email = strLower i.email)) :
    employeesCreate s u i pw bh nuid neid = ⟨s, .error .CONFLICT⟩ ∧
    ∀ (s₂ : St) (u₂ : SessionUser) (i₂ : EmpCreateInput) (pw₂ : Option String)
      (bh₂ : String → String) (a b : String) (err : Err),
      (employeesCreate s₂ u₂ i₂ pw₂ bh₂ a b).result = .error err →
      (employeesCreate s₂ u₂ i₂ pw₂ bh₂ a b).state = s₂ := by
  refine ⟨?_, fun s₂ u₂ i₂ pw₂ bh₂ a b err h =>
    employeesCreate_error_state_unchanged s₂ u₂ i₂ pw₂ bh₂ a b err h⟩
  have ha : isHRAdmin u.role = true := by simp [isHRAdmin, hadmin]
  have hc : ((s.employees.find? fun e => e.email == strLower i.email).isSome ||
      (s.users.find? fun w => w.email == strLower i.email).isSome) = true := by
    rcases htaken with ⟨e, he, hee⟩ | ⟨w, hw, hwe⟩
    · refine Bool.or_eq_true _ _ |>.mpr (Or.inl ?_)
      rw [List.find?_isSome]
      exact ⟨e, he, by simp [hee]⟩
    · refine Bool.or_eq_true _ _ |>.mpr (Or.inr ?_)
      rw [List.find?_isSome]
      exact ⟨w, hw, by simp [hwe]⟩
  simp [employeesCreate, ha, hc]

/-- Employee row already holding the lowercase form of the witness email. -/
def c6Emp : Employee :=
  { id := "e1", firstName := "A", lastName := "B", telephone := "t",
    email := "eve@test.com", status := .ACTIVE, userId := some "u1" }

/-- Store for the C6 witness. -/
def c6St : St :=
  { users := [{ id := "u1", email := "eve@test.com", passwordHash := "h",
                role := "EMPLOYEE", employeeId := some "e1" }],
    employees := [c6Emp] }

/-- Witness for C6: creating Eve@Test.Com over an existing eve@test.com
fails with CONFLICT and leaves the store untouched. -/
theorem admin_create_email_conflict_atomic_witness :
    employeesCreate c6St ⟨"a1", "HRADMIN", none⟩
      { firstName := "Eve", lastName := "E", telephone := "1", email := "Eve@Test.Com" }
      (some "pw") (fun _ => "H") "u9" "e9" = ⟨c6St, .error .CONFLICT⟩ :=
  (admin_create_email_conflict_atomic c6St ⟨"a1", "HRADMIN", none⟩
    { firstName := "Eve", lastName := "E", telephone := "1", email := "Eve@Test.Com" }
    (some "pw") (fun _ => "H") "u9" "e9" rfl (Or.inl (by decide))).1

/-- The target employee holds a membership in some department managed by the
given manager employee id. -/
def inManagedDept (s : St) (mid : String) (e : Employee) : Prop :=
  ∃ m ∈ s.memberships, m.employeeId = e.id ∧
    ∃ d ∈ s.departments, d.id = m.departmentId ∧ d.managerId = some mid

instance (s : St) (mid : String) (e : Employee) : Decidable (inManagedDept s mid e) := by
  unfold inManagedDept
  infer_instance

/-- The manager scope predicate matches a row exactly when the row is the
manager, a direct report, or a member of a managed department. -/
theorem manager_scope_eval (s : St) (u : SessionUser) (M : String) (e : Employee)
    (hrole : u.role = "MANAGER") (heid : u.employeeId = some M) :
    evalEmp s (buildAccessWhere s u) e = true ↔
      (e.id = M ∨ e.managerId = some M ∨ inManagedDept s M e) := by
  have e2 : isManager u.role = true := by simp [isManager, hrole]
  have e3 : isEmployee u.role = false := by simp [isEmployee, hrole]
  by_cases hni :
      (((s.departments.filter fun d => d.managerId == some M).map fun d => d.id).isEmpty) = true
  · have hscope : buildAccessWhere s u = .or (.idEq M) (.managerIdEq M) := by
      simp [buildAccessWhere, e2, e3, heid, hni]
    have hnodept : ∀ d ∈ s.departments, d.managerId ≠ some M := by
      have hmapnil : ((s.departments.filter fun d => d.managerId == some M).map fun d => d.id) = [] :=
        List.isEmpty_iff.mp hni
      have hfnil : (s.departments.filter fun d => d.managerId == some M) = [] :=
        List.map_eq_nil_iff.mp hmapnil
      intro d hd
      have := List.filter_eq_nil_iff.mp hfnil d hd
      simpa using this
    rw [hscope]
    simp only [evalEmp, Bool.or_eq_true, beq_iff_eq]
    constructor
    · rintro (h | h)
      · exact Or.inl h
      · exact Or.inr (Or.inl h)
    · rintro (h | h | h)
      · exact Or.inl h
      · exact Or.inr h
      · rcases h with ⟨m, _, _, d, hd, _, hdm⟩
        exact absurd hdm (hnodept d hd)
  · have hscope : buildAccessWhere s u =
        .or (.idEq M) (.or (.managerIdEq M)
          (.deptSome ((s.departments.filter fun d => d.managerId == some M).map fun d => d.id))) := by
      simp [buildAccessWhere, e2, e3, heid, hni]
    have hsome :
        (evalEmp s (.deptSome ((s.departments.filter fun d => d.managerId == some M).map fun d => d.id)) e = true)
          ↔ inManagedDept s M e := by
      simp only [evalEmp, List.any_eq_true, Bool.and_eq_true, beq_iff_eq, inManagedDept]
      constructor
      · rintro ⟨m, hm, hmid, hcon⟩
        have hmem : m.departmentId ∈
            ((s.departments.filter fun d => d.managerId == some M).map fun d => d.id) := by
          simpa using hcon
        rcases List.mem_map.mp hmem with ⟨d, hdf, hdid⟩
        rcases List.mem_filter.mp hdf with ⟨hd, hdm⟩
        exact ⟨m, hm, hmid, d, hd, hdid, by simpa using hdm⟩
      · rintro ⟨m, hm, hmid, d, hd, hdid, hdm⟩
        refine ⟨m, hm, hmid, ?_⟩
        have hmem : m.departmentId ∈
            ((s.departments.filter fun d => d.managerId == some M).map fun d => d.id) :=
          List.mem_map.mpr ⟨d, List.mem_filter.mpr ⟨hd, by simp [hdm]⟩, hdid⟩
        simpa using hmem
    rw [hscope]
    show ((e.id == M) || ((e.managerId == some M) ||
        evalEmp s (.deptSome ((s.departments.filter fun d => d.managerId == some M).map fun d => d.id)) e)) = true
      ↔ (e.id = M ∨ e.managerId = some M ∨ inManagedDept s M e)
    simp only [Bool.or_eq_true, beq_iff_eq, hsome]

/-- C3: under a session with role MANAGER and linked employeeId M, the
employee list returns exactly the union of the manager, the direct reports
(managerId == M), and the members of departments whose managerId == M; and
`getById` on an employee in none of these sets fails with an access error. -/
theorem manager_list_exact_and_reject (s : St) (u : SessionUser) (M : String) (t : Employee)
    (hWF : (s.employees.map fun e => e.id).Nodup)
    (hrole : u.role = "MANAGER") (heid : u.employeeId = some M) :
    (∀ e : Employee, e ∈ employeesList s u none ↔
      (e ∈ s.employees ∧ (e.id = M ∨ e.managerId = some M ∨ inManagedDept s M e))) ∧
    (t ∈ s.employees → t.id ≠ M → t.managerId ≠ some M → ¬ inManagedDept s M t →
      employeesGetById s u t.id = .error .FORBIDDEN) := by
  constructor
  · intro e
    simp only [employeesList]
    rw [mem_sortLe, List.mem_filter]
    exact and_congr_right fun _ => manager_scope_eval s u M e hrole heid
  · intro ht htid htm hnm
    have e2 : isManager u.role = true := by simp [isManager, hrole]
    have e3 : isEmployee u.role = false := by simp [isEmployee, hrole]
    have hfind : s.employees.find? (fun x => x.id == t.id) = some t := by
      simpa using find?_key_eq (fun x => x.id) t s.employees hWF ht
    have hok : (s.memberships.any fun m => m.employeeId == t.id &&
        s.departments.any fun d => d.id == m.departmentId && d.managerId == some M) = false := by
      rw [Bool.eq_false_iff]
      intro hany
      apply hnm
      simp only [List.any_eq_true, Bool.and_eq_true, beq_iff_eq] at hany
      rcases hany with ⟨m, hm, hmid, d, hd, hdid, hdm⟩
      exact ⟨m, hm, hmid, d, hd, hdid, hdm⟩
    simp [employeesGetById, e2, e3, assertManagerCanAccessEmployee, heid, htid, hfind, hok]

/-- Store for the C3 witness: manager m1 manages d1; e3m is a member of d1,
e2 reports to m1, e4 is unrelated. -/
def c3St : St :=
  { employees :=
      [{ id := "m1", firstName := "M", lastName := "A", telephone := "t",
         email := "m@x", status := .ACTIVE },
       { id := "e2", firstName := "R", lastName := "B", telephone := "t",
         email := "r@x", status := .ACTIVE, managerId := some "m1" },
       { id := "e3m", firstName := "S", lastName := "C", telephone := "t",
         email := "s@x", status := .ACTIVE },
       { id := "e4", firstName := "T", lastName := "D", telephone := "t",
         email := "u@x", status := .ACTIVE }],
    departments := [⟨"d1", "Sales", .ACTIVE, 0, some "m1"⟩],
    memberships := [⟨"e3m", "d1"⟩] }

/-- Witness for C3: the unrelated employee e4 is rejected by `getById`. -/
theorem manager_list_exact_and_reject_witness :
    employeesGetById c3St ⟨"u1", "MANAGER", some "m1"⟩ "e4" = .error .FORBIDDEN := by
  have h := (manager_list_exact_and_reject c3St ⟨"u1", "MANAGER", some "m1"⟩ "m1"
    { id := "e4", firstName := "T", lastName := "D", telephone := "t",
      email := "u@x", status := .ACTIVE }
    (by decide) rfl rfl).2 (by decide) (by decide) (by decide) (by decide)
  exact h

/-- Login account of the prospective department manager in the C7 scenario. -/
def c7User : User :=
  { id := "u1", email := "mgr@x", passwordHash := "h", role := "EMPLOYEE",
    employeeId := some "e1" }

/-- Employee row of the prospective department manager in the C7 scenario. -/
def c7Emp : Employee :=
  { id := "e1", firstName := "M", lastName := "G", telephone := "t",
    email := "mgr@x", status := .ACTIVE, userId := some "u1" }

/-- Store for the C7 scenario. -/
def c7St : St := { users := [c7User], employees := [c7Emp] }

/-- C7 (code bug): the manager-role promotion runs as its own store statement
before the department insert and outside any transaction, so when the
department write fails the call errors with no department created — yet the
promotion of the linked account to MANAGER is already persisted, violating
the required atomicity of the promotion plus department write. -/
theorem dept_create_promotion_not_atomic :
    (departmentsCreate c7St ⟨"a1", "HRADMIN", none⟩
        { name := "Engineering", managerId := some "e1" } "d9" 5 true).result =
      .error .INTERNAL_SERVER_ERROR ∧
    (departmentsCreate c7St ⟨"a1", "HRADMIN", none⟩
        { name := "Engineering", managerId := some "e1" } "d9" 5 true).state.departments = [] ∧
    (departmentsCreate c7St ⟨"a1", "HRADMIN", none⟩
        { name := "Engineering", managerId := some "e1" } "d9" 5 true).state.users =
      [{ c7User with role := "MANAGER" }] :=
  ⟨rfl, rfl, rfl⟩

end HRAS
